import Mathlib

/-!
Shallow embedding of the deterministic evaluation engine of signal-pulse:
`src/modules/criteria_evaluator.py` (8-criteria stock screener plus short-selling
alert) and `src/modules/market_status_evaluator.py` (index moving-average regime
classifier).  Python floats are idealised as exact rationals (`ℚ`); a numeric
field that is missing from the raw JSON behaves as `0` under the code's
`or 0` / truthiness coalescing, so absent values are embedded as `0`.
Korean reason strings are embedded as tags identifying which format string the
code chose.
-/

namespace SignalPulse

/-- Python `round` to the nearest integer with ties going to the even integer
(banker's rounding), idealised on exact rationals. -/
def roundHalfToEven (q : ℚ) : ℤ :=
  let f : ℤ := ⌊q⌋
  let r : ℚ := q - f
  if r < 1/2 then f
  else if 1/2 < r then f + 1
  else if f % 2 = 0 then f else f + 1

/-- Python `round(x, d)` for `d` decimal digits, idealised on exact rationals. -/
def pyRound (d : ℕ) (q : ℚ) : ℚ := (roundHalfToEven (q * 10 ^ d) : ℚ) / 10 ^ d

/-- `TICK_BOUNDARIES` from criteria_evaluator.py. -/
def TICK_BOUNDARIES : List ℚ :=
  [1000, 2000, 3000, 4000, 5000,
   10000, 20000, 30000, 40000, 50000,
   100000, 200000, 300000, 400000, 500000,
   1000000]

/-- `ROUND_LEVELS` from criteria_evaluator.py. -/
def ROUND_LEVELS : List ℚ :=
  [1000, 2000, 3000, 5000,
   10000, 20000, 30000, 50000,
   100000, 150000, 200000, 250000, 300000, 400000, 500000,
   600000, 700000, 800000, 900000, 1000000]

/-- Insert into an ascending list (used to embed Python `sorted`). -/
def insertAsc (x : ℚ) : List ℚ → List ℚ
  | [] => [x]
  | y :: ys => if x ≤ y then x :: y :: ys else y :: insertAsc x ys

/-- Ascending insertion sort, embedding Python `sorted` on numbers. -/
def sortAsc : List ℚ → List ℚ
  | [] => []
  | x :: xs => insertAsc x (sortAsc xs)

/-- `sorted(set(TICK_BOUNDARIES + ROUND_LEVELS))`: the deduplicated, ascending
candidate boundary list used by `check_resistance_breakout`. -/
def all_levels : List ℚ := sortAsc ((TICK_BOUNDARIES ++ ROUND_LEVELS).dedup)

/-- One entry of a market ranking list: `{"code": ..., "trading_value": ...}`.
`trading_value` embeds `s.get("trading_value", 0)` (missing behaves as 0). -/
structure RankEntry where
  code : String
  trading_value : ℚ
deriving DecidableEq

/-- Stable insertion step for a descending sort on the `trading_value` key.
An element is inserted in front of the first element whose key is ≤ its own,
which reproduces the stability of Python `sorted(..., reverse=True)`:
entries with equal keys keep their input order. -/
def insertByValueDesc (e : RankEntry) : List RankEntry → List RankEntry
  | [] => [e]
  | x :: xs =>
    if x.trading_value ≤ e.trading_value then e :: x :: xs
    else x :: insertByValueDesc e xs

/-- Stable descending sort by `trading_value`, embedding
`sorted(all_stocks, key=lambda s: s.get("trading_value", 0), reverse=True)`. -/
def sortByValueDesc : List RankEntry → List RankEntry
  | [] => []
  | x :: xs => insertByValueDesc x (sortByValueDesc xs)

/-- `CriteriaEvaluator._build_top30_set`: concatenate the KOSPI and KOSDAQ
ranking lists, sort by trading value descending, keep the first 30 entries'
codes as a set. -/
def build_top30_set (kospi kosdaq : List RankEntry) : Finset String :=
  (((sortByValueDesc (kospi ++ kosdaq)).take 30).map RankEntry.code).toFinset

/-- One OHLCV day-bar as read by the evaluator.  The source dicts also carry
date/open/low/volume, which no check reads.  A missing `close`/`high`/
`change_rate` acts as `0` at every use site (via `.get(..., 0)`, `or 0` and
truthiness tests), so it is embedded as `0`. -/
structure Bar where
  close : ℚ := 0
  high : ℚ := 0
  change_rate : ℚ := 0
deriving DecidableEq

/-- Which reason format-string a check chose (the strings themselves carry
interpolated numbers and are not otherwise branched on). -/
inductive Reason
  | noCurrentPrice        -- "현재가 데이터 없음"
  | brokeW52High          -- "52주 신고가 돌파 ..."
  | broke6MoHigh          -- "6개월 고점 돌파 ..."
  | noBreakout            -- "미돌파 ..."
  | downOrNoData          -- "하락 또는 데이터 없음"
  | resistanceBroken      -- "저항선 돌파: ..."
  | noResistanceBroken    -- "돌파 없음 ..."
  | insufficientData      -- "데이터 부족 (최소 20일 필요, ...)"
  | aligned               -- "정배열 확인 ..."
  | notAligned            -- "정배열 아님 ..."
  | supplyDemandDetail    -- "외국인 ..., 기관 ..."
  | programDetail         -- "프로그램 순매수량: ..."
  | inTop30               -- "거래대금 TOP30"
  | notTop30              -- "TOP30 아님"
  | capMissing            -- "시가총액 데이터 없음"
  | capBelow              -- "... 기준 미달 ..."
  | capInRange            -- "... 적정 범위 ..."
  | capAbove              -- "... 기준 초과 ..."
  | shortNoData           -- "공매도 데이터 없음"
  | shortExtreme          -- "공매도 ...% (극단: ...)"
  | shortWarning          -- "공매도 ...% (경고: ...)"
  | shortNormal           -- "공매도 ...% (정상)"
deriving DecidableEq

/-- Result of `check_high_breakout`.  The `current_price <= 0` early return
carries no `is_52w_high` key, embedded as `none`. -/
structure HighBreakoutResult where
  met : Bool
  is_52w_high : Option Bool
  reason : Reason
deriving DecidableEq

/-- `max(past_highs) if past_highs else 0`. -/
def maxOrZero : List ℚ → ℚ
  | [] => 0
  | x :: xs => xs.foldl max x

/-- The `past_highs`/`six_mo_high` lines of `check_high_breakout`: the
maximum of the truthy (nonzero) highs of bars 1..120, embedding the list
comprehension `[d.get("high", 0) for d in daily_prices[1:121] if
d.get("high")]` followed by `max(past_highs) if past_highs else 0`. -/
def six_mo_high (daily_prices : List Bar) : ℚ :=
  maxOrZero ((((daily_prices.drop 1).take 120).map Bar.high).filter
    (fun h => decide (h ≠ 0)))

/-- `CriteriaEvaluator.check_high_breakout`.  Guards translate Python
truthiness: `not current_price or current_price <= 0` is `current_price ≤ 0`
and `w52_high and w52_high > 0` is `0 < w52_high`. -/
def check_high_breakout (current_price : ℚ) (daily_prices : List Bar)
    (w52_high : ℚ) : HighBreakoutResult :=
  if current_price ≤ 0 then ⟨false, none, .noCurrentPrice⟩
  else if 0 < w52_high ∧ w52_high ≤ current_price then
    ⟨true, some true, .brokeW52High⟩
  else if 0 < six_mo_high daily_prices ∧
      six_mo_high daily_prices ≤ current_price then
    ⟨true, some false, .broke6MoHigh⟩
  else ⟨false, some false, .noBreakout⟩

/-- Result of `check_momentum_history`.  The reason string is assembled from
the two flags and carries no further information. -/
structure MomentumResult where
  met : Bool
  had_limit_up : Bool
  had_15pct_rise : Bool
deriving DecidableEq

/-- The effective change rate `cr` of bar `i` inside the
`check_momentum_history` loop: the stored `change_rate` (missing/None as 0),
recomputed from the next-older close when the stored rate is zero, a next
bar exists, its close is positive (`prev_close and prev_close > 0`) and the
bar's own close is truthy (`cur_close`, i.e. nonzero). -/
def momentumRate (daily_prices : List Bar) (i : ℕ) : ℚ :=
  let d := daily_prices.getD i {}
  let cr := d.change_rate
  if cr = 0 ∧ i + 1 < daily_prices.length then
    let prev_close := (daily_prices.getD (i + 1) {}).close
    let cur_close := d.close
    if 0 < prev_close ∧ cur_close ≠ 0 then
      (cur_close - prev_close) / prev_close * 100
    else cr
  else cr

/-- `CriteriaEvaluator.check_momentum_history`: scan every bar; flag a limit-up
if any effective rate is ≥ 29, a 15% rise if any is ≥ 15; met iff either. -/
def check_momentum_history (daily_prices : List Bar) : MomentumResult :=
  let rates := (List.range daily_prices.length).map (momentumRate daily_prices)
  let had_limit_up := rates.any (fun r => decide (29 ≤ r))
  let had_15pct_rise := rates.any (fun r => decide (15 ≤ r))
  ⟨had_limit_up || had_15pct_rise, had_limit_up, had_15pct_rise⟩

/-- Result of `check_resistance_breakout`; `broken_shown` embeds the up-to-3
boundaries `broken[:3]` interpolated into the reason string (empty when the
criterion is unmet). -/
structure ResistanceResult where
  met : Bool
  broken_shown : List ℚ
  reason : Reason
deriving DecidableEq

/-- `CriteriaEvaluator.check_resistance_breakout`.  The Python guard
`not current_price or not prev_close or current_price <= prev_close`
is `current_price = 0 ∨ prev_close = 0 ∨ current_price ≤ prev_close`. -/
def check_resistance_breakout (current_price prev_close : ℚ) : ResistanceResult :=
  if current_price = 0 ∨ prev_close = 0 ∨ current_price ≤ prev_close then
    ⟨false, [], .downOrNoData⟩
  else
    let broken := all_levels.filter
      (fun b => decide (prev_close < b) && decide (b ≤ current_price))
    if broken ≠ [] then ⟨true, broken.take 3, .resistanceBroken⟩
    else ⟨false, [], .noResistanceBroken⟩

/-- Result of `check_ma_alignment`; `ma_values = none` embeds the early return
that carries no `ma_values` key at all. -/
structure MAResult where
  met : Bool
  reason : Reason
  ma_values : Option (List (ℕ × ℚ))
deriving DecidableEq

/-- The valid closes, chronological: `[c for d in reversed(daily_prices)
if (c := d.get("close")) and c > 0]` -- reverse the most-recent-first bars and
keep positive closes. -/
def validCloses (daily_prices : List Bar) : List ℚ :=
  (daily_prices.reverse.map Bar.close).filter (fun c => decide (0 < c))

/-- The local `sma` of `check_ma_alignment`: `None` when fewer than `period`
closes exist, else the mean of the last `period` closes (`data[-period:]`). -/
def sma (data : List ℚ) (period : ℕ) : Option ℚ :=
  if data.length < period then none
  else some ((data.drop (data.length - period)).sum / (period : ℚ))

/-- `all_periods = [5, 10, 20, 60, 120]` (shared by both evaluator modules). -/
def ma_periods : List ℕ := [5, 10, 20, 60, 120]

/-- `all(vals[i] > vals[i+1] for i in range(len(vals)-1))`. -/
def strictDescB : List ℚ → Bool
  | a :: b :: t => decide (b < a) && strictDescB (b :: t)
  | _ => true

/-- `all(vals[i] < vals[i+1] for i in range(len(vals)-1))`. -/
def strictAscB : List ℚ → Bool
  | a :: b :: t => decide (a < b) && strictAscB (b :: t)
  | _ => true

/-- `CriteriaEvaluator.check_ma_alignment`: adaptive simple-moving-average
alignment.  Computable periods are kept in ascending order; the displayed
`ma_values` are rounded to 1 digit; met iff the chain
`current_price > MA5 > MA10 > ...` is strictly descending. -/
def check_ma_alignment (current_price : ℚ) (daily_prices : List Bar) : MAResult :=
  if current_price ≤ 0 then ⟨false, .noCurrentPrice, none⟩
  else
    let closes := validCloses daily_prices
    if closes.length < 20 then ⟨false, .insufficientData, some []⟩
    else
      let available := ma_periods.filterMap
        (fun p => (sma closes p).map (fun v => (p, v)))
      let ma_display := available.map (fun pv => (pv.1, pyRound 1 pv.2))
      let vals := current_price :: available.map Prod.snd
      if strictDescB vals then ⟨true, .aligned, some ma_display⟩
      else ⟨false, .notAligned, some ma_display⟩

/-- Result shape shared by the simple met/reason checks. -/
structure SimpleResult where
  met : Bool
  reason : Reason
deriving DecidableEq

/-- `CriteriaEvaluator.check_supply_demand`: met iff both net flows are > 0. -/
def check_supply_demand (foreign_net institution_net : ℚ) : SimpleResult :=
  ⟨decide (0 < foreign_net) && decide (0 < institution_net), .supplyDemandDetail⟩

/-- `CriteriaEvaluator.check_program_trading`: met iff net program buy > 0. -/
def check_program_trading (program_net_buy_qty : ℚ) : SimpleResult :=
  ⟨decide (0 < program_net_buy_qty), .programDetail⟩

/-- `CriteriaEvaluator.check_top30_trading_value`: membership in the
precomputed Top30 code set. -/
def check_top30_trading_value (top30_codes : Finset String)
    (stock_code : String) : SimpleResult :=
  if stock_code ∈ top30_codes then ⟨true, .inTop30⟩ else ⟨false, .notTop30⟩

/-- `CriteriaEvaluator.check_market_cap`: met iff 3000 ≤ cap ≤ 100000
(hundred-million currency units), with distinct reasons for missing, below
and above. -/
def check_market_cap (market_cap : ℚ) : SimpleResult :=
  if market_cap ≤ 0 then ⟨false, .capMissing⟩
  else if market_cap < 3000 then ⟨false, .capBelow⟩
  else if 100000 < market_cap then ⟨false, .capAbove⟩
  else ⟨true, .capInRange⟩

/-- `CriteriaEvaluator.check_short_selling`: met iff the short-selling ratio
(percent) is ≥ 5, with an escalated reason at ≥ 10. -/
def check_short_selling (ratio_pct : ℚ) : SimpleResult :=
  if ratio_pct ≤ 0 then ⟨false, .shortNoData⟩
  else if 10 ≤ ratio_pct then ⟨true, .shortExtreme⟩
  else if 5 ≤ ratio_pct then ⟨true, .shortWarning⟩
  else ⟨false, .shortNormal⟩

/-- The short-selling record `self._short_selling.get(code)`; the source field
is named `short_ratio` (percent of trading volume). -/
structure ShortSellingInfo where
  ratio_pct : ℚ
deriving DecidableEq

/-- The per-stock inputs `evaluate_stock` extracts from the raw KIS JSON
before running the checks.  In the source the scalars are coalesced with
`or 0` (and the foreign/institution and program figures picked through the
estimate-first / daily-first fallbacks); the embedding takes the coalesced
values as the snapshot. -/
structure Snapshot where
  code : String
  current_price : ℚ
  w52_high : ℚ
  prev_close : ℚ
  foreign_net : ℚ
  institution_net : ℚ
  market_cap : ℚ
  program_net : ℚ
  ohlcv : List Bar

/-- The keys of the criteria dict built by `evaluate_stock`. -/
inductive CKey
  | high_breakout | momentum_history | resistance_breakout | ma_alignment
  | supply_demand | program_trading | top30_trading_value | market_cap_range
  | short_selling_alert | all_met
deriving DecidableEq

/-- The criteria dict returned by `evaluate_stock`;
`short_selling_alert = none` embeds the key being absent. -/
structure CriteriaReport where
  high_breakout : HighBreakoutResult
  momentum_history : MomentumResult
  resistance_breakout : ResistanceResult
  ma_alignment : MAResult
  supply_demand : SimpleResult
  program_trading : SimpleResult
  top30_trading_value : SimpleResult
  market_cap_range : SimpleResult
  short_selling_alert : Option SimpleResult
  all_met : Bool
deriving DecidableEq

/-- `exclude_from_all_met = {"all_met", "short_selling_alert"}`. -/
def exclude_from_all_met : List CKey := [.all_met, .short_selling_alert]

/-- `CriteriaEvaluator.evaluate_stock`: run the 8 checks, conditionally attach
the short-selling alert (`if ss and ss.get("short_ratio", 0) > 0`), then set
`all_met` by iterating over the dict entries present at that point and
conjoining the `met` flags of the keys not in `exclude_from_all_met`. -/
def evaluate_stock (top30_codes : Finset String)
    (short_data : Option ShortSellingInfo) (s : Snapshot) : CriteriaReport :=
  let hb := check_high_breakout s.current_price s.ohlcv s.w52_high
  let mh := check_momentum_history s.ohlcv
  let rb := check_resistance_breakout s.current_price s.prev_close
  let ma := check_ma_alignment s.current_price s.ohlcv
  let sd := check_supply_demand s.foreign_net s.institution_net
  let pt := check_program_trading s.program_net
  let t30 := check_top30_trading_value top30_codes s.code
  let mc := check_market_cap s.market_cap
  let alert : Option SimpleResult :=
    match short_data with
    | some info =>
      if 0 < info.ratio_pct then some (check_short_selling info.ratio_pct)
      else none
    | none => none
  let entries : List (CKey × Bool) :=
    [(.high_breakout, hb.met), (.momentum_history, mh.met),
     (.resistance_breakout, rb.met), (.ma_alignment, ma.met),
     (.supply_demand, sd.met), (.program_trading, pt.met),
     (.top30_trading_value, t30.met), (.market_cap_range, mc.met)]
    ++ (match alert with
        | some a => [(CKey.short_selling_alert, a.met)]
        | none => [])
  let am := (entries.filter
    (fun kc => decide (kc.1 ∉ exclude_from_all_met))).all Prod.snd
  ⟨hb, mh, rb, ma, sd, pt, t30, mc, alert, am⟩

/-- The key set of the returned criteria dict, in insertion order: the 8
criterion keys, then the alert key when present, then `all_met`. -/
def reportKeys (r : CriteriaReport) : List CKey :=
  [.high_breakout, .momentum_history, .resistance_breakout, .ma_alignment,
   .supply_demand, .program_trading, .top30_trading_value, .market_cap_range]
  ++ (match r.short_selling_alert with
      | some _ => [CKey.short_selling_alert]
      | none => [])
  ++ [CKey.all_met]

/-! ## market_status_evaluator.py -/

/-- Regime status of `evaluate_alignment`. -/
inductive MarketStatus
  | bullish | bearish | mixed | unknown
deriving DecidableEq

/-- Which reason format-string `evaluate_alignment` chose. -/
inductive RegimeReason
  | noData             -- "데이터 없음"
  | insufficientData   -- "데이터 부족 (...일)"
  | bullishAligned     -- "... 정배열 (현재가>...)"
  | bearishAligned     -- "... 역배열 (현재가<...)"
  | mixedSignals       -- "... 혼조 (정배열도 역배열도 아님)"
deriving DecidableEq

/-- One index day-bar; `evaluate_alignment` reads only the close (the source
dicts also carry date/open/high/low/volume). -/
structure IndexBar where
  close : ℚ
deriving DecidableEq

/-- The verdict of `evaluate_alignment`; `current = none` embeds the empty-
input return that carries no `current` key. -/
structure RegimeVerdict where
  status : MarketStatus
  current : Option ℚ
  ma_values : List (ℕ × ℚ)
  reason : RegimeReason
deriving DecidableEq

/-- The local `ema` of `evaluate_alignment`: `None` when fewer than `period`
closes exist, else seed with the simple average of the first `period` closes
and smooth forward with `k = 2/(period+1)` through the remaining closes. -/
def ema (data : List ℚ) (period : ℕ) : Option ℚ :=
  if data.length < period then none
  else
    let k : ℚ := 2 / ((period : ℚ) + 1)
    some ((data.drop period).foldl
      (fun r price => price * k + r * (1 - k))
      ((data.take period).sum / (period : ℚ)))

/-- `closes = [d["close"] for d in reversed(ohlcv) if d["close"] > 0]`. -/
def indexCloses (ohlcv : List IndexBar) : List ℚ :=
  (ohlcv.reverse.map IndexBar.close).filter (fun c => decide (0 < c))

/-- `evaluate_alignment` from market_status_evaluator.py (the `market_name`
argument only enters the reason strings). -/
def evaluate_alignment (ohlcv : List IndexBar) : RegimeVerdict :=
  match ohlcv with
  | [] => ⟨.unknown, none, [], .noData⟩
  | first :: _ =>
    let current := first.close
    let closes := indexCloses ohlcv
    if closes.length < 20 then ⟨.unknown, some current, [], .insufficientData⟩
    else
      let available := ma_periods.filterMap
        (fun p => (ema closes p).map (fun v => (p, v)))
      let ma_display := available.map (fun pv => (pv.1, pyRound 2 pv.2))
      let vals := current :: available.map Prod.snd
      if strictDescB vals then
        ⟨.bullish, some (pyRound 2 current), ma_display, .bullishAligned⟩
      else if strictAscB vals then
        ⟨.bearish, some (pyRound 2 current), ma_display, .bearishAligned⟩
      else
        ⟨.mixed, some (pyRound 2 current), ma_display, .mixedSignals⟩

/-! ## Helper lemmas -/

/-- A change rate that clears the 29% limit-up bar also clears the 15% bar. -/
lemma any_ge29_imp_any_ge15 (l : List ℚ)
    (h : l.any (fun r => decide (29 ≤ r)) = true) :
    l.any (fun r => decide (15 ≤ r)) = true := by
  rw [List.any_eq_true] at h ⊢
  obtain ⟨r, hr, h29⟩ := h
  rw [decide_eq_true_iff] at h29
  exact ⟨r, hr, by rw [decide_eq_true_iff]; linarith⟩

/-- A vector of length ≥ 2 cannot be strictly descending and strictly
ascending at once. -/
lemma not_strictDescB_and_strictAscB (a b : ℚ) (t : List ℚ) :
    ¬(strictDescB (a :: b :: t) = true ∧ strictAscB (a :: b :: t) = true) := by
  rintro ⟨hd, ha⟩
  simp only [strictDescB, strictAscB, Bool.and_eq_true, decide_eq_true_iff] at hd ha
  exact absurd hd.1 (not_lt.mpr ha.1.le)

/-- Projecting the values out of the (period, EMA) pairs kept by the
classifier gives the EMAs of the computable periods, in order. -/
lemma map_snd_filterMap_ema (ps : List ℕ) (closes : List ℚ) :
    (ps.filterMap (fun p => (ema closes p).map (fun v => (p, v)))).map Prod.snd =
      ps.filterMap (fun p => ema closes p) := by
  induction ps with
  | nil => rfl
  | cons p ps ih => cases h : ema closes p <;> simp [List.filterMap_cons, h, ih]

/-- The EMA of a computable period is present. -/
lemma ema_isSome_of_le {data : List ℚ} {p : ℕ} (h : p ≤ data.length) :
    ∃ v, ema data p = some v := by
  rw [ema, if_neg (by omega)]
  exact ⟨_, rfl⟩

/-- The (period, SMA) pairs kept by `check_ma_alignment` are exactly the
periods not exceeding the history, paired with the mean of the last
`period` closes. -/
lemma filterMap_sma_eq_filter (ps : List ℕ) (closes : List ℚ) :
    ps.filterMap (fun p => (sma closes p).map (fun v => (p, v))) =
      (ps.filter (fun p => decide (p ≤ closes.length))).map
        (fun p => (p, (closes.drop (closes.length - p)).sum / (p : ℚ))) := by
  induction ps with
  | nil => rfl
  | cons p ps ih =>
    by_cases h : p ≤ closes.length
    · have hs : sma closes p =
          some ((closes.drop (closes.length - p)).sum / (p : ℚ)) := by
        rw [sma, if_neg (by omega)]
      simp [List.filterMap_cons, List.filter_cons, hs, h, ih]
    · have hs : sma closes p = none := by
        rw [sma, if_pos (by omega)]
      simp [List.filterMap_cons, List.filter_cons, hs, h, ih]

/-! ## Claims -/

/-- C1: for every stock snapshot, the `CriteriaReport` returned by
`evaluate_stock` has `all_met` equal to the conjunction of exactly the eight
primary criterion `met` flags; neither the `short_selling_alert` key (present
or absent) nor the `all_met` key itself enters the conjunction. -/
theorem c1_all_met_conjunction (top30 : Finset String)
    (sd : Option ShortSellingInfo) (s : Snapshot) :
    (evaluate_stock top30 sd s).all_met =
      ((evaluate_stock top30 sd s).high_breakout.met &&
       (evaluate_stock top30 sd s).momentum_history.met &&
       (evaluate_stock top30 sd s).resistance_breakout.met &&
       (evaluate_stock top30 sd s).ma_alignment.met &&
       (evaluate_stock top30 sd s).supply_demand.met &&
       (evaluate_stock top30 sd s).program_trading.met &&
       (evaluate_stock top30 sd s).top30_trading_value.met &&
       (evaluate_stock top30 sd s).market_cap_range.met) := by
  rcases sd with _ | info
  · simp [evaluate_stock, exclude_from_all_met, Bool.and_assoc]
  · by_cases h : 0 < info.ratio_pct <;>
      simp [evaluate_stock, exclude_from_all_met, h, Bool.and_assoc]

/-- C9: for every bar sequence, `had_limit_up` implies `had_15pct_rise`
(a rate ≥ 29 is also ≥ 15, and both flags are set from the same rates), so
the momentum criterion's `met` flag always equals `had_15pct_rise` alone. -/
theorem c9_momentum_limit_up_implies_15pct (daily_prices : List Bar) :
    ((check_momentum_history daily_prices).had_limit_up = true →
      (check_momentum_history daily_prices).had_15pct_rise = true) ∧
    (check_momentum_history daily_prices).met =
      (check_momentum_history daily_prices).had_15pct_rise := by
  have key := any_ge29_imp_any_ge15
    ((List.range daily_prices.length).map (momentumRate daily_prices))
  constructor
  · intro h
    simp only [check_momentum_history] at h ⊢
    exact key h
  · simp only [check_momentum_history]
    cases h29 : ((List.range daily_prices.length).map
        (momentumRate daily_prices)).any (fun r => decide (29 ≤ r))
    · simp [h29]
    · simp [h29, key h29]

/-- C9 witness: the implication discharged on a concrete two-bar history
holding a recomputed 30% rise. -/
theorem c9_momentum_limit_up_implies_15pct_witness :
    (check_momentum_history [⟨130, 0, 0⟩, ⟨100, 0, 0⟩]).had_15pct_rise = true ∧
    (check_momentum_history [⟨130, 0, 0⟩, ⟨100, 0, 0⟩]).met =
      (check_momentum_history [⟨130, 0, 0⟩, ⟨100, 0, 0⟩]).had_15pct_rise :=
  ⟨(c9_momentum_limit_up_implies_15pct [⟨130, 0, 0⟩, ⟨100, 0, 0⟩]).1
      (by norm_num [check_momentum_history, momentumRate, List.range_succ]),
   (c9_momentum_limit_up_implies_15pct [⟨130, 0, 0⟩, ⟨100, 0, 0⟩]).2⟩

/-- A concrete snapshot whose every numeric field is absent/zero. -/
def snapA : Snapshot := ⟨"005930", 0, 0, 0, 0, 0, 0, 0, []⟩

/-- C8: the report contains the `short_selling_alert` key iff short-selling
data was supplied for the stock with a positive ratio; when the ratio is ≤ 0
or the data is absent the key is omitted entirely, and the report's key set
is the 8 criterion keys plus `all_met`. -/
theorem c8_alert_key_presence (top30 : Finset String)
    (sd : Option ShortSellingInfo) (s : Snapshot) :
    ((evaluate_stock top30 sd s).short_selling_alert.isSome = true ↔
      ∃ info, sd = some info ∧ 0 < info.ratio_pct) ∧
    ((evaluate_stock top30 sd s).short_selling_alert = none →
      reportKeys (evaluate_stock top30 sd s) =
        [.high_breakout, .momentum_history, .resistance_breakout, .ma_alignment,
         .supply_demand, .program_trading, .top30_trading_value,
         .market_cap_range, .all_met]) := by
  rcases sd with _ | info
  · exact ⟨by simp [evaluate_stock], fun _ => by simp [evaluate_stock, reportKeys]⟩
  · by_cases h : 0 < info.ratio_pct
    · refine ⟨by simp [evaluate_stock, h], fun hnone => ?_⟩
      simp [evaluate_stock, h] at hnone
    · exact ⟨by simp [evaluate_stock, h, le_of_not_lt],
        fun _ => by simp [evaluate_stock, reportKeys, h]⟩

/-- C8 witness: with no short-selling data the report's key set is the 8
criterion keys plus `all_met`. -/
theorem c8_alert_key_presence_witness :
    reportKeys (evaluate_stock ∅ none snapA) =
      [.high_breakout, .momentum_history, .resistance_breakout, .ma_alignment,
       .supply_demand, .program_trading, .top30_trading_value,
       .market_cap_range, .all_met] :=
  (c8_alert_key_presence ∅ none snapA).2 (by simp [evaluate_stock])

/-- C7 counterexample: a two-bar history whose older close is negative.  The
first bar's stored `change_rate` is 0 and the claimed recomputed rate
`(close[0] - close[1]) / close[1] * 100 = 40` clears the 29% bar, so the
claim demands `had_limit_up = true`; the code leaves the rate at 0 (it only
recomputes when the next-older close is positive) and reports `met = false`. -/
theorem c7_momentum_counterexample :
    (⟨-7, 0, 0⟩ : Bar).change_rate = 0 ∧
    ((-7 : ℚ) - (-5)) / (-5) * 100 = 40 ∧ ((29 : ℚ) ≤ 40) ∧
    (check_momentum_history [⟨-7, 0, 0⟩, ⟨-5, 0, 0⟩]).had_limit_up = false ∧
    (check_momentum_history [⟨-7, 0, 0⟩, ⟨-5, 0, 0⟩]).met = false := by
  norm_num [check_momentum_history, momentumRate, List.range_succ]

/-- C7 (amended): the momentum scan covers every bar; a bar's effective rate
is its stored `change_rate`, recomputed as
`(close[i] - close[i+1]) / close[i+1] * 100` only when the stored rate is
zero, a next-older bar exists, that bar's close is positive and the bar's own
close is nonzero; `had_limit_up` iff some effective rate is ≥ 29,
`had_15pct_rise` iff some is ≥ 15, met iff either flag holds — and the
claim's 3-bar instance (one close 30% above the prior close, stored rate 0)
is met with `had_limit_up = true`. -/
theorem c7_momentum_scan_amended (daily_prices : List Bar) :
    ((check_momentum_history daily_prices).had_limit_up = true ↔
      ∃ i, i < daily_prices.length ∧ 29 ≤ momentumRate daily_prices i) ∧
    ((check_momentum_history daily_prices).had_15pct_rise = true ↔
      ∃ i, i < daily_prices.length ∧ 15 ≤ momentumRate daily_prices i) ∧
    ((check_momentum_history daily_prices).met = true ↔
      ((check_momentum_history daily_prices).had_limit_up = true ∨
       (check_momentum_history daily_prices).had_15pct_rise = true)) ∧
    check_momentum_history [⟨130, 0, 0⟩, ⟨100, 0, 0⟩, ⟨90, 0, 0⟩] =
      ⟨true, true, true⟩ := by
  refine ⟨?_, ?_, ?_, ?_⟩
  · simp [check_momentum_history, List.any_eq_true]
  · simp [check_momentum_history, List.any_eq_true]
  · simp [check_momentum_history]
  · norm_num [check_momentum_history, momentumRate, List.range_succ]

/-- C7 witness: the amended characterisation applied to the 3-bar instance,
the existential discharged at index 0. -/
theorem c7_momentum_scan_amended_witness :
    (check_momentum_history [⟨130, 0, 0⟩, ⟨100, 0, 0⟩, ⟨90, 0, 0⟩]).had_limit_up
      = true :=
  ((c7_momentum_scan_amended [⟨130, 0, 0⟩, ⟨100, 0, 0⟩, ⟨90, 0, 0⟩]).1).mpr
    ⟨0, by norm_num, by norm_num [momentumRate]⟩

/-- C4 counterexample: `current_price = 100 > 0`, `week52_high = 0`, no bars.
The claim's first branch (`current_price ≥ week52_high` → met with
`is_52w_high = true`) fires since `100 ≥ 0`, but the code requires
`week52_high > 0` before the 52-week branch and reports the snapshot unmet
with `is_52w_high = false`. -/
theorem c4_high_breakout_counterexample :
    (0 : ℚ) < 100 ∧ (0 : ℚ) ≤ 100 ∧
    (check_high_breakout 100 [] 0).met = false ∧
    (check_high_breakout 100 [] 0).is_52w_high = some false := by
  norm_num [check_high_breakout, six_mo_high, maxOrZero]

/-- C4 (amended): the high-breakout criterion fails closed when
`current_price ≤ 0`; it is met with `is_52w_high = true` when in addition
`week52_high` is *positive* and `current_price ≥ week52_high`; otherwise it
is met with `is_52w_high = false` iff the maximum nonzero high over bars
1..120 is positive and `current_price` reaches it. -/
theorem c4_high_breakout_amended (cp w52 : ℚ) (bars : List Bar) :
    (cp ≤ 0 → (check_high_breakout cp bars w52).met = false) ∧
    (0 < cp → 0 < w52 → w52 ≤ cp →
      check_high_breakout cp bars w52 = ⟨true, some true, .brokeW52High⟩) ∧
    (0 < cp → ¬(0 < w52 ∧ w52 ≤ cp) →
      (((check_high_breakout cp bars w52).met = true) ↔
        (0 < six_mo_high bars ∧ six_mo_high bars ≤ cp)) ∧
      (check_high_breakout cp bars w52).is_52w_high = some false) := by
  refine ⟨fun h => by simp [check_high_breakout, h], fun h1 h2 h3 => ?_,
    fun h1 h2 => ?_⟩
  · rw [check_high_breakout, if_neg (not_le.mpr h1), if_pos ⟨h2, h3⟩]
  · rw [check_high_breakout, if_neg (not_le.mpr h1), if_neg h2]
    by_cases hM : 0 < six_mo_high bars ∧ six_mo_high bars ≤ cp
    · rw [if_pos hM]
      simpa using hM
    · rw [if_neg hM]
      simpa using hM

/-- C4 witness: the amended statement applied to a snapshot at its 52-week
high, its hypotheses discharged concretely. -/
theorem c4_high_breakout_amended_witness :
    check_high_breakout 100 [] 90 = ⟨true, some true, .brokeW52High⟩ :=
  (c4_high_breakout_amended 100 90 []).2.1 (by norm_num) (by norm_num)
    (by norm_num)

/-- C5 counterexample: `current_price = 0` with no bars, hence 0 < 20 valid
closes.  The claim demands an unmet verdict with an insufficient-data reason
and empty `ma_values`; the code returns the no-current-price reason and emits
no `ma_values` key at all. -/
theorem c5_ma_alignment_counterexample :
    (validCloses []).length < 20 ∧
    check_ma_alignment 0 [] = ⟨false, .noCurrentPrice, none⟩ ∧
    Reason.noCurrentPrice ≠ Reason.insufficientData := by
  refine ⟨by norm_num [validCloses], by norm_num [check_ma_alignment], by decide⟩

/-- C5 (amended): when `current_price ≤ 0` the criterion is unmet with the
no-current-price reason and no `ma_values` key; when `current_price > 0` and
fewer than 20 valid (>0) closes exist it is unmet with the insufficient-data
reason and empty `ma_values`; when `current_price > 0` and ≥ 20 valid closes
exist it is met iff the chain `current_price > SMA5 > SMA10 > …` is strictly
descending over exactly the computable periods among {5,10,20,60,120} in
ascending order, periods whose window exceeds the history being silently
excluded from the chain and from the reported `ma_values`. -/
theorem c5_ma_alignment_amended (cp : ℚ) (bars : List Bar) :
    (cp ≤ 0 → check_ma_alignment cp bars = ⟨false, .noCurrentPrice, none⟩) ∧
    (0 < cp → (validCloses bars).length < 20 →
      check_ma_alignment cp bars = ⟨false, .insufficientData, some []⟩) ∧
    (0 < cp → 20 ≤ (validCloses bars).length →
      ((check_ma_alignment cp bars).met = true ↔
        strictDescB (cp :: (ma_periods.filter
          (fun p => decide (p ≤ (validCloses bars).length))).map
          (fun p => ((validCloses bars).drop ((validCloses bars).length - p)).sum
            / (p : ℚ))) = true) ∧
      (check_ma_alignment cp bars).ma_values =
        some ((ma_periods.filter
          (fun p => decide (p ≤ (validCloses bars).length))).map
          (fun p => (p, pyRound 1 (((validCloses bars).drop
            ((validCloses bars).length - p)).sum / (p : ℚ)))))) := by
  refine ⟨fun h => by simp [check_ma_alignment, h], fun h1 h2 => ?_,
    fun h1 h2 => ?_⟩
  · rw [check_ma_alignment, if_neg (not_le.mpr h1), if_pos h2]
  · rw [check_ma_alignment, if_neg (not_le.mpr h1), if_neg (not_lt.mpr h2)]
    rw [filterMap_sma_eq_filter]
    simp only [List.map_map, Function.comp_def]
    by_cases hd : strictDescB (cp :: (ma_periods.filter
        (fun p => decide (p ≤ (validCloses bars).length))).map
        (fun p => ((validCloses bars).drop ((validCloses bars).length - p)).sum
          / (p : ℚ))) = true
    · rw [if_pos hd]
      simp [hd]
    · rw [if_neg hd]
      simp [hd]

/-- Twenty day-bars, most-recent-first, closes 40 … 21 into the past (so the
chronological closes rise towards today). -/
def barsB : List Bar :=
  [⟨40, 0, 0⟩, ⟨39, 0, 0⟩, ⟨38, 0, 0⟩, ⟨37, 0, 0⟩, ⟨36, 0, 0⟩,
   ⟨35, 0, 0⟩, ⟨34, 0, 0⟩, ⟨33, 0, 0⟩, ⟨32, 0, 0⟩, ⟨31, 0, 0⟩,
   ⟨30, 0, 0⟩, ⟨29, 0, 0⟩, ⟨28, 0, 0⟩, ⟨27, 0, 0⟩, ⟨26, 0, 0⟩,
   ⟨25, 0, 0⟩, ⟨24, 0, 0⟩, ⟨23, 0, 0⟩, ⟨22, 0, 0⟩, ⟨21, 0, 0⟩]

/-- C5 witness: the amended statement applied to 20 strictly decreasing
closes below a high current price; only MA5/MA10/MA20 are computable and the
chain is met. -/
theorem c5_ma_alignment_amended_witness :
    (check_ma_alignment 50 barsB).met = true := by
  have h := (c5_ma_alignment_amended 50 barsB).2.2
    (by norm_num)
    (by norm_num [validCloses, barsB, List.filter])
  exact h.1.mpr (by norm_num [validCloses, barsB, ma_periods,
    strictDescB, List.filter])

/-- The concrete value of the deduplicated, ascending boundary list. -/
lemma all_levels_eq :
    all_levels = [1000, 2000, 3000, 4000, 5000, 10000, 20000, 30000, 40000,
      50000, 100000, 150000, 200000, 250000, 300000, 400000, 500000, 600000,
      700000, 800000, 900000, 1000000] := by
  norm_num [all_levels, TICK_BOUNDARIES, ROUND_LEVELS, sortAsc, insertAsc,
    List.dedup]

/-- Every candidate boundary is positive. -/
lemma all_levels_pos : ∀ b ∈ all_levels, (0 : ℚ) < b := by
  rw [all_levels_eq]
  intro b hb
  fin_cases hb <;> norm_num

/-- The candidate boundaries are strictly ascending. -/
lemma all_levels_pairwise : all_levels.Pairwise (· < ·) := by
  rw [all_levels_eq]
  norm_num [List.pairwise_cons]

/-- C6 counterexample: `prev_close = 0`, `current_price = 1000`.  Then
`current_price > prev_close` and boundary 1000 satisfies
`prev_close < 1000 ≤ current_price`, so the claim demands a met verdict; the
code's truthiness guard on `prev_close` reports it unmet. -/
theorem c6_resistance_counterexample :
    (0 : ℚ) < 1000 ∧ (1000 : ℚ) ∈ all_levels ∧ ((1000 : ℚ) ≤ 1000) ∧
    (check_resistance_breakout 1000 0).met = false := by
  refine ⟨by norm_num, ?_, by norm_num, by norm_num [check_resistance_breakout]⟩
  rw [all_levels_eq]
  norm_num

/-- C6 (amended): whenever `current_price ≤ prev_close` *or `prev_close` is
zero* the criterion is unmet; when `current_price > prev_close` and
`prev_close ≠ 0`, it is met iff some boundary in the union of the tick-size
ladder and the round-number levels satisfies
`prev_close < boundary ≤ current_price`, and the boundaries reported in the
reason are the first (at most 3) breached ones, in ascending order. -/
theorem c6_resistance_amended (cp pc : ℚ) :
    ((cp ≤ pc ∨ pc = 0) → (check_resistance_breakout cp pc).met = false) ∧
    (pc < cp → pc ≠ 0 →
      (((check_resistance_breakout cp pc).met = true) ↔
        ∃ b ∈ all_levels, pc < b ∧ b ≤ cp) ∧
      (check_resistance_breakout cp pc).broken_shown =
        (all_levels.filter
          (fun b => decide (pc < b) && decide (b ≤ cp))).take 3 ∧
      (check_resistance_breakout cp pc).broken_shown.length ≤ 3 ∧
      (check_resistance_breakout cp pc).broken_shown.Pairwise (· < ·)) := by
  constructor
  · intro h
    rw [check_resistance_breakout, if_pos (by tauto)]
  · intro hlt hne
    by_cases hcp : cp = 0
    · have hfil : all_levels.filter
          (fun b => decide (pc < b) && decide (b ≤ cp)) = [] := by
        rw [List.filter_eq_nil_iff]
        intro b hb
        have hpos := all_levels_pos b hb
        simp only [Bool.and_eq_true, decide_eq_true_iff, not_and]
        intro _
        rw [hcp]
        exact not_le.mpr hpos
      rw [check_resistance_breakout, if_pos (Or.inl hcp), hfil]
      refine ⟨?_, rfl, by norm_num, List.Pairwise.nil⟩
      constructor
      · intro hmet
        exact absurd hmet (by norm_num)
      · rintro ⟨b, hb, _, hble⟩
        have hpos := all_levels_pos b hb
        rw [hcp] at hble
        exact absurd hble (not_le.mpr hpos)
    · simp only [check_resistance_breakout]
      rw [if_neg (by push_neg; exact ⟨hcp, hne, hlt⟩)]
      by_cases hb : all_levels.filter
          (fun b => decide (pc < b) && decide (b ≤ cp)) = []
      · rw [hb, if_neg (by simp)]
        refine ⟨?_, by simp, by norm_num, List.Pairwise.nil⟩
        constructor
        · intro hmet
          exact absurd hmet (by norm_num)
        · rintro ⟨b, hbm, h1, h2⟩
          have : b ∈ all_levels.filter
              (fun b => decide (pc < b) && decide (b ≤ cp)) := by
            rw [List.mem_filter]
            exact ⟨hbm, by simp [h1, h2]⟩
          rw [hb] at this
          exact absurd this (List.not_mem_nil b)
      · rw [if_pos hb]
        have hsub : ((all_levels.filter
            (fun b => decide (pc < b) && decide (b ≤ cp))).take 3).Sublist
            all_levels :=
          (List.take_sublist _ _).trans (List.filter_sublist _)
        refine ⟨?_, rfl, List.length_take_le _ _, all_levels_pairwise.sublist hsub⟩
        constructor
        · intro _
          obtain ⟨b, hbm⟩ := List.exists_mem_of_ne_nil _ hb
          rw [List.mem_filter, Bool.and_eq_true, decide_eq_true_iff,
            decide_eq_true_iff] at hbm
          exact ⟨b, hbm.1, hbm.2.1, hbm.2.2⟩
        · intro _
          rfl

/-- C6 witness: the amended statement applied to the spec's own example
`prev_close = 950`, `current_price = 1050`, the breached boundary being
1000. -/
theorem c6_resistance_amended_witness :
    (check_resistance_breakout 1050 950).met = true :=
  ((c6_resistance_amended 1050 950).2 (by norm_num) (by norm_num)).1.mpr
    ⟨1000, by rw [all_levels_eq]; norm_num, by norm_num, by norm_num⟩

/-- C2: the regime classifier returns unknown with empty `ma_values` on an
empty bar sequence; unknown with the data-insufficiency reason (and empty
`ma_values`) when fewer than 20 valid (>0) closes exist; and otherwise, with
EMAs computed for the computable periods among {5,10,20,60,120} over the
chronological closes, classifies bullish iff the comparison vector
`[current] ++ computable EMAs` is strictly descending, bearish iff it is
strictly ascending, and mixed in every other case. -/
theorem c2_regime_classification (ohlcv : List IndexBar) :
    (ohlcv = [] → evaluate_alignment ohlcv = ⟨.unknown, none, [], .noData⟩) ∧
    (ohlcv ≠ [] → (indexCloses ohlcv).length < 20 →
      (evaluate_alignment ohlcv).status = .unknown ∧
      (evaluate_alignment ohlcv).reason = .insufficientData ∧
      (evaluate_alignment ohlcv).ma_values = []) ∧
    (∀ first rest, ohlcv = first :: rest →
      20 ≤ (indexCloses ohlcv).length →
      (((evaluate_alignment ohlcv).status = .bullish ↔
        strictDescB (first.close ::
          ma_periods.filterMap (fun p => ema (indexCloses ohlcv) p)) = true) ∧
       ((evaluate_alignment ohlcv).status = .bearish ↔
        strictAscB (first.close ::
          ma_periods.filterMap (fun p => ema (indexCloses ohlcv) p)) = true) ∧
       ((evaluate_alignment ohlcv).status = .mixed ↔
        (strictDescB (first.close ::
          ma_periods.filterMap (fun p => ema (indexCloses ohlcv) p)) = false ∧
         strictAscB (first.close ::
          ma_periods.filterMap (fun p => ema (indexCloses ohlcv) p)) = false)))) := by
  refine ⟨fun h => by subst h; rfl, fun hne h20 => ?_, ?_⟩
  · match ohlcv, hne with
    | first :: rest, _ =>
      simp only [evaluate_alignment]
      rw [if_pos h20]
      exact ⟨rfl, rfl, rfl⟩
  · rintro first rest rfl h20
    simp only [evaluate_alignment]
    rw [if_neg (not_lt.mpr h20), map_snd_filterMap_ema]
    obtain ⟨v5, hv5⟩ := ema_isSome_of_le
      (le_trans (by norm_num) h20 :
        5 ≤ (indexCloses (first :: rest)).length)
    have hvals : ma_periods.filterMap
        (fun p => ema (indexCloses (first :: rest)) p) =
        v5 :: [10, 20, 60, 120].filterMap
          (fun p => ema (indexCloses (first :: rest)) p) := by
      rw [ma_periods, List.filterMap_cons, hv5]
    cases hd : strictDescB (first.close :: ma_periods.filterMap
        (fun p => ema (indexCloses (first :: rest)) p)) with
    | true =>
      have ha : strictAscB (first.close :: ma_periods.filterMap
          (fun p => ema (indexCloses (first :: rest)) p)) = false := by
        cases ha : strictAscB (first.close :: ma_periods.filterMap
            (fun p => ema (indexCloses (first :: rest)) p)) with
        | false => rfl
        | true =>
          rw [hvals] at hd ha
          exact absurd ⟨hd, ha⟩ (not_strictDescB_and_strictAscB first.close v5 _)
      simp [ha]
    | false =>
      cases ha : strictAscB (first.close :: ma_periods.filterMap
          (fun p => ema (indexCloses (first :: rest)) p)) with
      | true => simp
      | false => simp

/-- Twenty index bars, most-recent-first, closes rising towards today. -/
def c2Bars : List IndexBar :=
  [⟨40⟩, ⟨39⟩, ⟨38⟩, ⟨37⟩, ⟨36⟩, ⟨35⟩, ⟨34⟩, ⟨33⟩, ⟨32⟩, ⟨31⟩,
   ⟨30⟩, ⟨29⟩, ⟨28⟩, ⟨27⟩, ⟨26⟩, ⟨25⟩, ⟨24⟩, ⟨23⟩, ⟨22⟩, ⟨21⟩]

/-- C2 witness: an uptrending 20-bar index is classified bullish; the
classifier hypotheses are discharged on the concrete bars. -/
theorem c2_regime_classification_witness :
    (evaluate_alignment c2Bars).status = MarketStatus.bullish := by
  have h := ((c2_regime_classification c2Bars).2.2 ⟨40⟩ c2Bars.tail rfl
    (by norm_num [indexCloses, c2Bars, List.filter])).1
  exact h.mpr (by norm_num [c2Bars, indexCloses, List.filter, ma_periods,
    List.filterMap, ema, strictDescB])

/-- Twenty-one index bars: today's close is 0 (non-positive), the 20 older
closes are valid and fall towards today. -/
def c10Bars : List IndexBar :=
  [⟨0⟩, ⟨21⟩, ⟨22⟩, ⟨23⟩, ⟨24⟩, ⟨25⟩, ⟨26⟩, ⟨27⟩, ⟨28⟩, ⟨29⟩, ⟨30⟩,
   ⟨31⟩, ⟨32⟩, ⟨33⟩, ⟨34⟩, ⟨35⟩, ⟨36⟩, ⟨37⟩, ⟨38⟩, ⟨39⟩, ⟨40⟩]

/-- C10: for every non-empty bar sequence the reported `current` comes from
the first bar's close with no `> 0` validity filter (verbatim below 20 valid
closes, display-rounded to 2 digits otherwise), and on a concrete sequence
whose first close is 0 while 20 later closes are valid, the 0 still heads the
comparison vector, is reported as `current`, and drives a bearish
classification. -/
theorem c10_current_head_unfiltered :
    (∀ (first : IndexBar) (rest : List IndexBar),
      ((indexCloses (first :: rest)).length < 20 →
        (evaluate_alignment (first :: rest)).current = some first.close) ∧
      (20 ≤ (indexCloses (first :: rest)).length →
        (evaluate_alignment (first :: rest)).current =
          some (pyRound 2 first.close))) ∧
    (c10Bars.head? = some ⟨0⟩ ∧
     (∀ c ∈ indexCloses c10Bars, 0 < c) ∧
     20 ≤ (indexCloses c10Bars).length ∧
     (evaluate_alignment c10Bars).status = MarketStatus.bearish ∧
     (evaluate_alignment c10Bars).current = some 0) := by
  constructor
  · intro first rest
    constructor
    · intro h
      simp only [evaluate_alignment]
      rw [if_pos h]
    · intro h
      simp only [evaluate_alignment]
      rw [if_neg (not_lt.mpr h)]
      split_ifs <;> rfl
  · refine ⟨rfl, ?_, ?_, ?_, ?_⟩
    · norm_num [c10Bars, indexCloses, List.filter]
    · norm_num [c10Bars, indexCloses, List.filter]
    · norm_num [c10Bars, evaluate_alignment, indexCloses, List.filter,
        ma_periods, List.filterMap, ema, strictDescB, strictAscB]
    · norm_num [c10Bars, evaluate_alignment, indexCloses, List.filter,
        ma_periods, List.filterMap, ema, strictDescB, strictAscB, pyRound,
        roundHalfToEven]

/-- C10 witness: the universal part applied to a one-bar sequence, whose
close is reported verbatim. -/
theorem c10_current_head_unfiltered_witness :
    (evaluate_alignment [⟨5⟩]).current = some 5 :=
  (c10_current_head_unfiltered.1 ⟨5⟩ []).1 (by norm_num [indexCloses])

/-- Inserting into the descending sort produces a permutation of the cons. -/
lemma insertByValueDesc_perm (e : RankEntry) (l : List RankEntry) :
    (insertByValueDesc e l).Perm (e :: l) := by
  induction l with
  | nil => exact List.Perm.refl _
  | cons x xs ih =>
    rw [insertByValueDesc]
    by_cases h : x.trading_value ≤ e.trading_value
    · rw [if_pos h]
    · rw [if_neg h]
      exact (ih.cons x).trans (List.Perm.swap e x xs)

/-- The descending sort permutes its input. -/
lemma sortByValueDesc_perm (l : List RankEntry) :
    (sortByValueDesc l).Perm l := by
  induction l with
  | nil => exact List.Perm.refl _
  | cons x xs ih => exact (insertByValueDesc_perm x _).trans (ih.cons x)

/-- Inserting into a descending-by-value list keeps it descending. -/
lemma insertByValueDesc_pairwise (e : RankEntry) (l : List RankEntry)
    (h : l.Pairwise (fun a b => b.trading_value ≤ a.trading_value)) :
    (insertByValueDesc e l).Pairwise
      (fun a b => b.trading_value ≤ a.trading_value) := by
  induction l with
  | nil => simp [insertByValueDesc]
  | cons x xs ih =>
    rw [insertByValueDesc]
    rcases List.pairwise_cons.mp h with ⟨hx, hxs⟩
    by_cases hle : x.trading_value ≤ e.trading_value
    · rw [if_pos hle]
      refine List.pairwise_cons.mpr ⟨?_, h⟩
      intro b hb
      rcases List.mem_cons.mp hb with rfl | hb
      · exact hle
      · exact le_trans (hx b hb) hle
    · rw [if_neg hle]
      refine List.pairwise_cons.mpr ⟨?_, ih hxs⟩
      intro b hb
      rcases List.mem_cons.mp ((insertByValueDesc_perm e xs).mem_iff.mp hb)
        with rfl | hb
      · exact le_of_lt (lt_of_not_le hle)
      · exact hx b hb

/-- The descending sort is descending in `trading_value`. -/
lemma sortByValueDesc_pairwise (l : List RankEntry) :
    (sortByValueDesc l).Pairwise
      (fun a b => b.trading_value ≤ a.trading_value) := by
  induction l with
  | nil => exact List.Pairwise.nil
  | cons x xs ih => exact insertByValueDesc_pairwise x _ ih

/-- C3 counterexample: the same code listed in both markets.  The combined
input has 2 entries, so the claim demands a set of size `min 30 2 = 2`, but
the code set collapses the duplicate and has size 1. -/
theorem c3_top30_counterexample :
    (build_top30_set [⟨"A", 10⟩] [⟨"A", 5⟩]).card = 1 ∧
    min 30 ((([⟨"A", 10⟩] : List RankEntry) ++ ([⟨"A", 5⟩] : List RankEntry)).length) = 2 := by
  constructor
  · norm_num [build_top30_set, sortByValueDesc, insertByValueDesc]
  · norm_num

/-- C3 (amended): provided the entries' codes are pairwise distinct across
the two ranking lists, the Top30 code set has size exactly
`min(30, total entries)` and contains only the codes with the highest trading
values; with duplicated codes the set can be smaller, the duplicate being
included once. -/
theorem c3_top30_amended (kospi kosdaq : List RankEntry)
    (hnd : ((kospi ++ kosdaq).map RankEntry.code).Nodup) :
    (build_top30_set kospi kosdaq).card = min 30 (kospi ++ kosdaq).length ∧
    (∀ e ∈ kospi ++ kosdaq, ∀ f ∈ kospi ++ kosdaq,
      e.code ∈ build_top30_set kospi kosdaq →
      f.code ∉ build_top30_set kospi kosdaq →
      f.trading_value ≤ e.trading_value) := by
  have hperm := sortByValueDesc_perm (kospi ++ kosdaq)
  have hndS : ((sortByValueDesc (kospi ++ kosdaq)).map RankEntry.code).Nodup :=
    ((hperm.map RankEntry.code).nodup_iff).mpr hnd
  have hndT : (((sortByValueDesc (kospi ++ kosdaq)).take 30).map
      RankEntry.code).Nodup :=
    hndS.sublist ((List.take_sublist 30 _).map RankEntry.code)
  constructor
  · rw [build_top30_set, List.toFinset_card_of_nodup hndT, List.length_map,
      List.length_take, hperm.length_eq]
  · intro e he f hf heS hfS
    obtain ⟨e', he', hec⟩ := List.mem_map.mp (List.mem_toFinset.mp heS)
    have he'L : e' ∈ kospi ++ kosdaq :=
      hperm.subset (List.take_subset 30 _ he')
    have hee : e' = e :=
      List.inj_on_of_nodup_map hnd he'L he hec
    subst hee
    have hfS' : f ∈ sortByValueDesc (kospi ++ kosdaq) := hperm.symm.subset hf
    rw [← List.take_append_drop 30 (sortByValueDesc (kospi ++ kosdaq)),
      List.mem_append] at hfS'
    rcases hfS' with hfT | hfD
    · exact absurd (List.mem_toFinset.mpr (List.mem_map.mpr ⟨f, hfT, rfl⟩)) hfS
    · have hpw := sortByValueDesc_pairwise (kospi ++ kosdaq)
      rw [← List.take_append_drop 30 (sortByValueDesc (kospi ++ kosdaq)),
        List.pairwise_append] at hpw
      exact hpw.2.2 e' he' f hfD

/-- C3 witness: distinct codes in the two lists give a set of size
`min 30 2 = 2`. -/
theorem c3_top30_amended_witness :
    (build_top30_set [⟨"A", 10⟩] [⟨"B", 5⟩]).card = 2 := by
  have h := (c3_top30_amended [⟨"A", 10⟩] [⟨"B", 5⟩] (by simp)).1
  simpa using h

end SignalPulse
